import Mathlib

/-!
# Verification of `scripts/get_data.py` (qlib data fetcher)

Shallow embedding of the `GetData` class of `scripts/get_data.py`.

* Byte strings are `List Nat`; file-system paths are lists of path
  components (`FPath`).
* The file system is an association list from paths to byte contents plus a
  set of directories; Python exceptions are modelled with `Except`, where an
  error carries the file-system state at the moment of the raise (a Python
  exception does not roll back completed side effects).
* The HTTP response (`requests.get`) is a parameter: a status code and a
  body.  The zip archive produced by the download is likewise represented
  by its entry list (relative path, bytes), since `zipfile` parsing is not
  byte-level modelled.
-/

namespace GetDataModel

/-- A file-system path, as a list of path components. -/
abbrev FPath := List String

/-- Bytes of a file or of an HTTP body. -/
abbrev Bytes := List Nat

/-- The file system: an association list of files (later entries shadowed by
earlier ones) and a list of existing directories. -/
structure FS where
  files : List (FPath × Bytes)
  dirs : List FPath
  deriving DecidableEq, Repr

/-- Read a file: the most recent write at path `p`, if any. -/
def readFile (fs : FS) (p : FPath) : Option Bytes :=
  (fs.files.find? (fun e => e.1 == p)).map (fun e => e.2)

/-- Whether a file exists at `p`. -/
def fileExists (fs : FS) (p : FPath) : Bool :=
  (readFile fs p).isSome

/-- Write (create or truncate-and-write) the file at `p` with contents `b`. -/
def writeFile (fs : FS) (p : FPath) (b : Bytes) : FS :=
  { fs with files := (p, b) :: fs.files }

/-- `Path.mkdir(exist_ok=True, parents=True)`: records the directory; the
file map is untouched (creating a directory never creates or alters files). -/
def mkdirP (fs : FS) (p : FPath) : FS :=
  if p ∈ fs.dirs then fs else { fs with dirs := p :: fs.dirs }

/-- Does path `d` lead the path `p` (i.e. is `p` inside the tree rooted at
`d`, the root `d` itself included)? -/
def leadsWith (d p : FPath) : Bool :=
  p.take d.length == d

/-- Whether anything (a file or a directory) exists at `p`: `Path.exists()`. -/
def pathExists (fs : FS) (p : FPath) : Bool :=
  fileExists fs p || fs.dirs.contains p || fs.files.any (fun e => leadsWith p e.1)

/-- `shutil.rmtree`: remove the tree rooted at `p`, files and directories. -/
def rmtree (fs : FS) (p : FPath) : FS :=
  { files := fs.files.filter (fun e => !leadsWith p e.1),
    dirs := fs.dirs.filter (fun d => !leadsWith p d) }

@[simp] theorem readFile_writeFile_self (fs : FS) (p : FPath) (b : Bytes) :
    readFile (writeFile fs p b) p = some b := by
  simp [readFile, writeFile, List.find?]

theorem readFile_writeFile_ne (fs : FS) (p q : FPath) (b : Bytes) (h : p ≠ q) :
    readFile (writeFile fs p b) q = readFile fs q := by
  simp only [readFile, writeFile, List.find?]
  have : ((p, b).1 == q) = false := by
    simp only [beq_eq_false_iff_ne, ne_eq]
    exact h
  simp [this]

@[simp] theorem mkdirP_files (fs : FS) (p : FPath) :
    (mkdirP fs p).files = fs.files := by
  unfold mkdirP
  split <;> rfl

/-! ## The HTTP layer and chunked streaming (`_download_data`, lines 31-55) -/

/-- A `requests.get` response: the status code and the full body. -/
structure Resp where
  status : Nat
  body : Bytes
  deriving DecidableEq, Repr

/-- The Python exceptions this script can raise. -/
inductive PyErr where
  /-- `requests.exceptions.HTTPError()`, raised on a non-200 status (line 40). -/
  | httpError
  /-- `AttributeError`: `target_path.unlike()` (line 55) — `pathlib.Path`
  has no attribute `unlike` (a typo for `unlink`). -/
  | attributeError
  /-- `TypeError`: subscripting `None` when `re.search` finds no match (line 106). -/
  | typeError
  /-- `packaging` failing to parse the extracted version string. -/
  | invalidVersion
  deriving DecidableEq, Repr

/-- Chunking with a structural fuel argument; every step consumes at least
one byte, so any fuel of at least the list length gives the full chunking. -/
def chunksOfF (n : Nat) : Nat → Bytes → List Bytes
  | 0, _ => []
  | _, [] => []
  | fuel + 1, x :: xs => (x :: xs.take (n - 1)) :: chunksOfF n fuel (xs.drop (n - 1))

/-- `resp.iter_content(chunk_size=n)`: the body cut into chunks of `n` bytes
(the last chunk may be shorter). -/
def chunksOf (n : Nat) (l : Bytes) : List Bytes :=
  chunksOfF n l.length l

/-- The bytes accumulated in the open file by the download loop
(lines 48-50): each chunk is appended in turn. -/
def streamedBytes (n : Nat) (body : Bytes) : Bytes :=
  (chunksOf n body).foldl (fun acc ch => acc ++ ch) []

/-- An entry of the downloaded zip archive: its relative path inside the
archive and its bytes.  `zipfile.ZipFile(...).namelist()` yields these in
order. -/
abbrev ZipEntry := FPath × Bytes

/-- `GetData._unzip` (lines 57-64).  When `delete_old` is set the source
only emits a log warning ("will delete the old qlib data directory"); no
deletion is performed — `_delete_qlib_data` is never called.  Each archive
entry is then extracted under `target_dir`, overwriting files in place. -/
def unzip (entries : List ZipEntry) (target_dir : FPath) (delete_old : Bool)
    (fs : FS) : FS :=
  -- `if delete_old: logger.warning(...)` — a log line, no file-system effect
  let _ := delete_old
  entries.foldl (fun a e => writeFile a (target_dir ++ e.1) e.2) fs

/-- `GetData._delete_qlib_data` (lines 66-72): remove the three category
subdirectories under `file_dir` when they exist.  NOTE: this method is
defined in the source but never invoked by any other method of the class. -/
def delete_qlib_data (file_dir : FPath) (fs : FS) : FS :=
  [("features" : String), "calendars", "instruments"].foldl
    (fun a n =>
      let p := file_dir ++ [n]
      if pathExists a p then rmtree a p else a) fs

/-- `GetData._download_data` (lines 31-55), parametrised by the response
`resp` that `requests.get` returns and by `entries`, the entry list of the
zip archive whose bytes are the downloaded body.

Steps, in source order:
1. `target_dir.mkdir(exist_ok=True, parents=True)` (line 33);
2. raise `HTTPError` if the status is not 200 (lines 39-40) — the output
   file has not been opened at this point;
3. stream the body into `target_path` in chunks of 1024 bytes (lines 42-51);
4. `self._unzip(target_path, target_dir, delete_old)` (line 53);
5. if `self.delete_zip_file`: `target_path.unlike()` (lines 54-55) — `Path`
   has no attribute `unlike`, so this raises `AttributeError` and in
   particular never deletes the archive.

An error result carries the file-system state at the raise point. -/
def downloadData (fs : FS) (delete_zip_file : Bool) (resp : Resp)
    (entries : List ZipEntry) (file_name : String) (target_dir : FPath)
    (delete_old : Bool := true) : Except (PyErr × FS) FS :=
  let fs1 := mkdirP fs target_dir
  let target_path := target_dir ++ [file_name]
  if resp.status ≠ 200 then
    .error (.httpError, fs1)
  else
    let fs2 := writeFile fs1 target_path (streamedBytes 1024 resp.body)
    let fs3 := unzip entries target_dir delete_old fs2
    if delete_zip_file then
      .error (.attributeError, fs3)
    else
      .ok fs3

/-- The file-system state a run ends in, whether it returned or raised. -/
def resultFS : Except (PyErr × FS) FS → FS
  | .ok fs => fs
  | .error (_, fs) => fs

/-- `GetData.csv_data_cn` (lines 120-135): a hard-coded file name, and
`_download_data` invoked without a `delete_old` argument (so the default
`delete_old=True` applies). -/
def csv_data_cn (fs : FS) (delete_zip_file : Bool) (resp : Resp)
    (entries : List ZipEntry) (target_dir : FPath) : Except (PyErr × FS) FS :=
  downloadData fs delete_zip_file resp entries "csv_data_cn.zip" target_dir

/-! ## Round-trip of the chunked stream -/

theorem chunksOfF_foldl_append (n : Nat) :
    ∀ (fuel : Nat) (l acc : Bytes), l.length ≤ fuel →
      (chunksOfF n fuel l).foldl (fun a ch => a ++ ch) acc = acc ++ l := by
  intro fuel
  induction fuel with
  | zero =>
      intro l acc hl
      rw [List.length_eq_zero.mp (Nat.le_zero.mp hl)]
      simp [chunksOfF]
  | succ fuel ih =>
      intro l acc hl
      match l with
      | [] => simp [chunksOfF]
      | x :: xs =>
          rw [chunksOfF]
          simp only [List.foldl_cons]
          rw [ih _ _ (by simp only [List.length_drop]; simp at hl; omega)]
          simp [List.cons_append, List.take_append_drop, List.append_assoc]

theorem chunksOf_foldl_append (n : Nat) (l : Bytes) :
    ∀ acc : Bytes, (chunksOf n l).foldl (fun a ch => a ++ ch) acc = acc ++ l :=
  fun acc => chunksOfF_foldl_append n l.length l acc (Nat.le_refl _)

/-- The chunked download loop writes back exactly the response body. -/
theorem streamedBytes_eq (n : Nat) (body : Bytes) :
    streamedBytes n body = body := by
  simpa using chunksOf_foldl_append n body []

/-! ## What extraction leaves on disk -/

theorem readFile_extract_of_ne (es : List ZipEntry) (td : FPath) (q : FPath) :
    ∀ fs : FS, (∀ e ∈ es, td ++ e.1 ≠ q) →
      readFile (es.foldl (fun a e => writeFile a (td ++ e.1) e.2) fs) q
        = readFile fs q := by
  induction es with
  | nil =>
      intro fs _
      rfl
  | cons e es ih =>
      intro fs h
      simp only [List.foldl_cons]
      rw [ih _ (fun x hx => h x (List.mem_cons_of_mem _ hx))]
      exact readFile_writeFile_ne _ _ _ _ (h e (List.mem_cons_self _ _))

theorem readFile_extract_of_mem (es : List ZipEntry) (td : FPath) :
    ∀ fs : FS, (es.map Prod.fst).Nodup →
      ∀ e ∈ es,
        readFile (es.foldl (fun a x => writeFile a (td ++ x.1) x.2) fs) (td ++ e.1)
          = some e.2 := by
  induction es with
  | nil =>
      intro fs _ e he
      exact absurd he (List.not_mem_nil e)
  | cons a es ih =>
      intro fs hnd e he
      simp only [List.map_cons, List.nodup_cons] at hnd
      simp only [List.foldl_cons]
      rcases List.mem_cons.mp he with rfl | hmem
      · rw [readFile_extract_of_ne]
        · exact readFile_writeFile_self _ _ _
        · intro x hx hcontra
          exact hnd.1 (by
            have : x.1 = e.1 := List.append_cancel_left hcontra
            exact this ▸ List.mem_map_of_mem Prod.fst hx)
      · exact ih _ hnd.2 e hmem

/-! ## Lower-casing and the file-name template (`qlib_data`, lines 111-118) -/

/-- Python `str.lower` (for the ASCII strings this script handles,
`Char.toLower` agrees with Python's per-character lowering). -/
def strLower (s : String) : String :=
  ⟨s.data.map Char.toLower⟩

theorem charToLower_idem (c : Char) :
    Char.toLower (Char.toLower c) = Char.toLower c := by
  unfold Char.toLower
  simp only []
  by_cases h : c.toNat ≥ 65 ∧ c.toNat ≤ 90
  · rw [if_pos h]
    have hv : (c.toNat + 32).isValidChar := by
      unfold Nat.isValidChar
      left
      omega
    have ht : (Char.ofNat (c.toNat + 32)).toNat = c.toNat + 32 := by
      unfold Char.ofNat
      rw [dif_pos hv]
      simp [Char.ofNatAux, Char.toNat, UInt32.toNat, BitVec.toNat_ofNatLt]
    rw [ht]
    rw [if_neg (by omega)]
  · rw [if_neg h, if_neg h]

theorem strLower_append (a b : String) :
    strLower (a ++ b) = strLower a ++ strLower b := by
  apply String.ext
  simp [strLower]

theorem strLower_strLower (s : String) :
    strLower (strLower s) = strLower s := by
  apply String.ext
  simp [strLower, List.map_map, Function.comp, charToLower_idem]

/-- `QLIB_DATA_NAME` (line 19) instantiated by `str.format`. -/
def qlibDataNameFormat
    (dataset_name region interval qlib_version data_version : String) : String :=
  dataset_name ++ "_" ++ region ++ "_" ++ interval ++ "_" ++ qlib_version
    ++ "_" ++ data_version ++ ".zip"

/-- The file name `qlib_data` resolves (lines 111-118): `region` and
`interval` are lower-cased at format time (lines 113-114) and the whole
name is lower-cased before the download step (line 118). -/
def qlibDataFileName
    (name version interval region qlib_version : String) : String :=
  strLower (qlibDataNameFormat name (strLower region) (strLower interval)
    qlib_version version)

/-! ## The version regex `(\d+)(.)(\d+)(.)(\d+)` of line 106

A faithful backtracking matcher for this one pattern: each `\d+` is tried
greedily (longest run first, then shorter), `.` matches any character but a
newline, and the search tries start positions left to right. -/

/-- Length of the maximal leading run of ASCII digits. -/
def digitRunLen : List Char → Nat
  | [] => 0
  | c :: cs => if c.isDigit then digitRunLen cs + 1 else 0

/-- Match the final `\d+`: greedily take the whole leading digit run
(at least one digit); the pattern ends here, so no backtracking is needed. -/
def matchRun3 (l : List Char) : Option Nat :=
  if digitRunLen l = 0 then none else some (digitRunLen l)

/-- Match `.` (any character but a newline) and then the final `\d+`. -/
def matchDot3 : List Char → Option Nat
  | [] => none
  | c :: cs => if c = '\n' then none else (matchRun3 cs).map (fun m => m + 1)

/-- Backtracking for the middle `\d+`: try length `k`, then `k - 1`, ...,
then `1`, each followed by `.` and the final `\d+`. -/
def tryRun2 (l : List Char) : Nat → Option Nat
  | 0 => none
  | k + 1 =>
    match matchDot3 (l.drop (k + 1)) with
    | some m => some (k + 1 + m)
    | none => tryRun2 l k

/-- Match the middle `\d+` (greedy, backtracking) and the rest. -/
def matchRun2 (l : List Char) : Option Nat :=
  tryRun2 l (digitRunLen l)

/-- Match `.` and then the middle `\d+` and the rest. -/
def matchDot2 : List Char → Option Nat
  | [] => none
  | c :: cs => if c = '\n' then none else (matchRun2 cs).map (fun m => m + 1)

/-- Backtracking for the first `\d+`. -/
def tryRun1 (l : List Char) : Nat → Option Nat
  | 0 => none
  | k + 1 =>
    match matchDot2 (l.drop (k + 1)) with
    | some m => some (k + 1 + m)
    | none => tryRun1 l k

/-- Match the whole pattern anchored at the head of `l`, returning the
length of the match. -/
def matchVersionAt (l : List Char) : Option Nat :=
  tryRun1 l (digitRunLen l)

/-- `re.search(r"(\d+)(.)(\d+)(.)(\d+)", s)`: the leftmost match, returned
as the matched substring (the `[0]` of the match object). -/
def searchVersion : List Char → Option (List Char)
  | [] => none
  | c :: cs =>
    match matchVersionAt (c :: cs) with
    | some n => some ((c :: cs).take n)
    | none => searchVersion cs

/-! ## Version parsing and the `SpecifierSet` test (lines 106-110) -/

/-- Numeric value of a digit string. -/
def readNat (l : List Char) : Nat :=
  l.foldl (fun a c => a * 10 + (c.toNat - 48)) 0

/-- `packaging.version.parse` restricted to the domain the claims exercise:
a plain release triple `"<digits>.<digits>.<digits>"` parses to its three
numeric components.  The regex of line 106 can also produce strings with
non-dot separators (its `.` matches any character); those are signalled as
a parse failure here, a path none of the claims depends on. -/
def parseTriple (m : List Char) : Option (Nat × Nat × Nat) :=
  let n1 := digitRunLen m
  match m.drop n1 with
  | '.' :: t1 =>
    let n2 := digitRunLen t1
    match t1.drop n2 with
    | '.' :: t2 =>
      let n3 := digitRunLen t2
      if 1 ≤ n1 ∧ 1 ≤ n2 ∧ 1 ≤ n3 ∧ t2.drop n3 = [] then
        some (readNat (m.take n1), readNat (t1.take n2), readNat (t2.take n3))
      else
        none
    | _ => none
  | _ => none

/-- Lexicographic comparison of equal-length numeric component lists. -/
def lexLE : List Nat → List Nat → Bool
  | [], _ => true
  | _ :: _, [] => false
  | x :: xs, y :: ys =>
    if x < y then true else if y < x then false else lexLE xs ys

/-- Pad a release to `n` components with zeros. -/
def padZeros (a : List Nat) (n : Nat) : List Nat :=
  a ++ List.replicate (n - a.length) 0

/-- PEP 440 ordering on plain release versions: zero-pad to equal length,
then compare component-wise. -/
def releaseLE (a b : List Nat) : Bool :=
  lexLE (padZeros a (max a.length b.length)) (padZeros b (max a.length b.length))

/-- `p_version.parse(_version) in SpecifierSet("<=0.6.1")` (line 107) on a
release triple.  (The regex always yields three numeric groups, so no
epoch, pre-, post- or dev-release segment can occur, and the prerelease
exclusion of `SpecifierSet.__contains__` never fires.) -/
def inSpecLE061 (v : Nat × Nat × Nat) : Bool :=
  releaseLE [v.1, v.2.1, v.2.2] [0, 6, 1]

/-- Lines 106-110: the compatibility tag chosen from the installed version. -/
def selectQlibVersion (v : Nat × Nat × Nat) : String :=
  if inSpecLE061 v then "0.6.1" else "latest"

/-- Lines 106-118 of `qlib_data`: from the installed `qlib.__version__` and
the call arguments to the resolved request file name, or the exception the
resolution raises before any network or file-system effect. -/
def qlibDataResolve
    (lib_version name version interval region : String) : Except PyErr String :=
  match searchVersion lib_version.data with
  | none => .error .typeError
  | some m =>
    match parseTriple m with
    | none => .error .invalidVersion
    | some t => .ok (qlibDataFileName name version interval region (selectQlibVersion t))

/-- `GetData.qlib_data` (lines 74-118) end to end: resolve the request file
name, then run `_download_data` on it.  The resolution (line 106) runs
before `_download_data`, so a resolution error is raised with no HTTP
request issued and the file system `fs` untouched. -/
def qlib_data (fs : FS) (delete_zip_file : Bool) (resp : Resp)
    (entries : List ZipEntry) (lib_version : String) (name : String)
    (target_dir : FPath) (version interval region : String)
    (delete_old : Bool := true) : Except (PyErr × FS) FS :=
  match qlibDataResolve lib_version name version interval region with
  | .error e => .error (e, fs)
  | .ok fn => downloadData fs delete_zip_file resp entries fn target_dir delete_old

/-! ## The numeric order on parsed three-component versions -/

/-- The usual (lexicographic) order on three-component numeric versions:
`a ≤ b` as version numbers. -/
def verLE (a b : Nat × Nat × Nat) : Prop :=
  a.1 < b.1 ∨ (a.1 = b.1 ∧ (a.2.1 < b.2.1 ∨ (a.2.1 = b.2.1 ∧ a.2.2 ≤ b.2.2)))

/-- Strict version order: `a < b` as version numbers. -/
def verLT (a b : Nat × Nat × Nat) : Prop :=
  a.1 < b.1 ∨ (a.1 = b.1 ∧ (a.2.1 < b.2.1 ∨ (a.2.1 = b.2.1 ∧ a.2.2 < b.2.2)))

instance (a b : Nat × Nat × Nat) : Decidable (verLE a b) := by
  unfold verLE
  infer_instance

instance (a b : Nat × Nat × Nat) : Decidable (verLT a b) := by
  unfold verLT
  infer_instance

theorem inSpecLE061_iff (a b c : Nat) :
    inSpecLE061 (a, b, c) = true ↔ verLE (a, b, c) (0, 6, 1) := by
  unfold inSpecLE061 releaseLE padZeros verLE
  simp only [List.length_cons, List.length_nil]
  norm_num [lexLE]
  omega

/-! ## Soundness of the version matcher: a successful search exhibits three
digit groups separated by single non-newline characters -/

theorem digitRunLen_le_length (l : List Char) : digitRunLen l ≤ l.length := by
  induction l with
  | nil => simp [digitRunLen]
  | cons c cs ih =>
      simp only [digitRunLen, List.length_cons]
      split <;> omega

theorem isDigit_of_mem_take (l : List Char) :
    ∀ j, j ≤ digitRunLen l → ∀ c ∈ l.take j, c.isDigit = true := by
  induction l with
  | nil =>
      intro j hj c hc
      simp at hc
  | cons a as ih =>
      intro j hj c hc
      match j with
      | 0 => simp at hc
      | k + 1 =>
          simp only [digitRunLen] at hj
          by_cases ha : a.isDigit
          · rw [if_pos ha] at hj
            simp only [List.take_succ_cons] at hc
            rcases List.mem_cons.mp hc with rfl | hmem
            · exact ha
            · exact ih k (by omega) c hmem
          · rw [if_neg ha] at hj
            omega

theorem digitRunLen_pos_cons (l : List Char) (h : 1 ≤ digitRunLen l) :
    ∃ e t, l = e :: t ∧ e.isDigit = true := by
  match l with
  | [] => simp [digitRunLen] at h
  | e :: t =>
      refine ⟨e, t, rfl, ?_⟩
      cases he : e.isDigit with
      | true => rfl
      | false =>
          rw [digitRunLen, if_neg (by simp [he])] at h
          omega

theorem matchRun3_some (l : List Char) (m : Nat) (h : matchRun3 l = some m) :
    1 ≤ digitRunLen l := by
  unfold matchRun3 at h
  by_cases h0 : digitRunLen l = 0
  · rw [if_pos h0] at h
    simp at h
  · omega

theorem matchDot3_some (x : List Char) (m : Nat) (h : matchDot3 x = some m) :
    ∃ d t, x = d :: t ∧ d ≠ '\n' ∧ ∃ m3, matchRun3 t = some m3 := by
  match x with
  | [] => simp [matchDot3] at h
  | d :: t =>
      rw [matchDot3] at h
      by_cases hd : d = '\n'
      · rw [if_pos hd] at h
        simp at h
      · rw [if_neg hd] at h
        cases hr : matchRun3 t with
        | none =>
            rw [hr] at h
            simp at h
        | some m3 => exact ⟨d, t, rfl, hd, m3, hr⟩

theorem tryRun2_some (l : List Char) :
    ∀ k n, tryRun2 l k = some n →
      ∃ j, 1 ≤ j ∧ j ≤ k ∧ ∃ m, matchDot3 (l.drop j) = some m := by
  intro k
  induction k with
  | zero =>
      intro n h
      simp [tryRun2] at h
  | succ k ih =>
      intro n h
      rw [tryRun2] at h
      cases hm : matchDot3 (l.drop (k + 1)) with
      | some m => exact ⟨k + 1, by omega, Nat.le_refl _, m, hm⟩
      | none =>
          rw [hm] at h
          obtain ⟨j, h1, h2, hm'⟩ := ih n h
          exact ⟨j, h1, by omega, hm'⟩

theorem matchDot2_some (x : List Char) (m : Nat) (h : matchDot2 x = some m) :
    ∃ b t, x = b :: t ∧ b ≠ '\n' ∧ ∃ m2, matchRun2 t = some m2 := by
  match x with
  | [] => simp [matchDot2] at h
  | b :: t =>
      rw [matchDot2] at h
      by_cases hb : b = '\n'
      · rw [if_pos hb] at h
        simp at h
      · rw [if_neg hb] at h
        cases hr : matchRun2 t with
        | none =>
            rw [hr] at h
            simp at h
        | some m2 => exact ⟨b, t, rfl, hb, m2, hr⟩

theorem tryRun1_some (l : List Char) :
    ∀ k n, tryRun1 l k = some n →
      ∃ j, 1 ≤ j ∧ j ≤ k ∧ ∃ m, matchDot2 (l.drop j) = some m := by
  intro k
  induction k with
  | zero =>
      intro n h
      simp [tryRun1] at h
  | succ k ih =>
      intro n h
      rw [tryRun1] at h
      cases hm : matchDot2 (l.drop (k + 1)) with
      | some m => exact ⟨k + 1, by omega, Nat.le_refl _, m, hm⟩
      | none =>
          rw [hm] at h
          obtain ⟨j, h1, h2, hm'⟩ := ih n h
          exact ⟨j, h1, by omega, hm'⟩

theorem take_ne_nil_of_len (l : List Char) (j : Nat) (h1 : 1 ≤ j)
    (h2 : j ≤ l.length) : l.take j ≠ [] := by
  intro hc
  have hlen := congrArg List.length hc
  rw [List.length_take] at hlen
  simp only [List.length_nil] at hlen
  omega

theorem matchVersionAt_shape (l : List Char) (n : Nat)
    (h : matchVersionAt l = some n) :
    ∃ d1 b d2 d d3 post,
      l = d1 ++ [b] ++ d2 ++ [d] ++ d3 ++ post
      ∧ d1 ≠ [] ∧ (∀ c ∈ d1, c.isDigit = true)
      ∧ d2 ≠ [] ∧ (∀ c ∈ d2, c.isDigit = true)
      ∧ d3 ≠ [] ∧ (∀ c ∈ d3, c.isDigit = true)
      ∧ b ≠ '\n' ∧ d ≠ '\n' := by
  obtain ⟨j, hj1, hj2, m, hm⟩ := tryRun1_some l (digitRunLen l) n h
  obtain ⟨b, t, ht, hb, m2, hm2⟩ := matchDot2_some _ _ hm
  obtain ⟨j2, hj21, hj22, m3, hm3⟩ := tryRun2_some t (digitRunLen t) m2 hm2
  obtain ⟨d, t2, ht2, hd, m4, hm4⟩ := matchDot3_some _ _ hm3
  obtain ⟨e, t3, ht3, he⟩ := digitRunLen_pos_cons t2 (matchRun3_some _ _ hm4)
  have hl : l = l.take j ++ (b :: t) := by
    rw [← ht]
    exact (List.take_append_drop j l).symm
  have htt : t = t.take j2 ++ (d :: t2) := by
    rw [← ht2]
    exact (List.take_append_drop j2 t).symm
  refine ⟨l.take j, b, t.take j2, d, [e], t3, ?_, ?_, ?_, ?_, ?_, ?_, ?_, hb, hd⟩
  · conv_lhs => rw [hl, htt, ht3]
    simp [List.append_assoc]
  · exact take_ne_nil_of_len l j hj1 (hj2.trans (digitRunLen_le_length l))
  · exact isDigit_of_mem_take l j hj2
  · exact take_ne_nil_of_len t j2 hj21 (hj22.trans (digitRunLen_le_length t))
  · exact isDigit_of_mem_take t j2 hj22
  · simp
  · intro c hc
    rw [List.mem_singleton.mp hc]
    exact he

theorem searchVersion_some_shape (s : List Char) (r : List Char)
    (h : searchVersion s = some r) :
    ∃ pre d1 b d2 d d3 post,
      s = pre ++ (d1 ++ [b] ++ d2 ++ [d] ++ d3) ++ post
      ∧ d1 ≠ [] ∧ (∀ c ∈ d1, c.isDigit = true)
      ∧ d2 ≠ [] ∧ (∀ c ∈ d2, c.isDigit = true)
      ∧ d3 ≠ [] ∧ (∀ c ∈ d3, c.isDigit = true)
      ∧ b ≠ '\n' ∧ d ≠ '\n' := by
  induction s with
  | nil => simp [searchVersion] at h
  | cons c cs ih =>
      rw [searchVersion] at h
      cases hm : matchVersionAt (c :: cs) with
      | some n =>
          obtain ⟨d1, b, d2, d, d3, post, heq, p1, p2, p3, p4, p5, p6, p7, p8⟩ :=
            matchVersionAt_shape (c :: cs) n hm
          refine ⟨[], d1, b, d2, d, d3, post, ?_, p1, p2, p3, p4, p5, p6, p7, p8⟩
          rw [heq]
          simp [List.append_assoc]
      | none =>
          rw [hm] at h
          obtain ⟨pre, d1, b, d2, d, d3, post, heq, p1, p2, p3, p4, p5, p6, p7, p8⟩ :=
            ih h
          refine ⟨c :: pre, d1, b, d2, d, d3, post, ?_, p1, p2, p3, p4, p5, p6, p7, p8⟩
          rw [heq]
          simp [List.append_assoc]

/-! ## The claims -/

/-- C3: compatibility-tag selection in `qlib_data`.  Every parsed numeric
version less than or equal to `0.6.1` selects the tag `"0.6.1"`, every
version strictly greater selects `"latest"`, and the boundary version
`0.6.1` itself selects `"0.6.1"`. -/
theorem claim3_compat_tag (a b c : Nat) :
    (verLE (a, b, c) (0, 6, 1) → selectQlibVersion (a, b, c) = "0.6.1")
    ∧ (verLT (0, 6, 1) (a, b, c) → selectQlibVersion (a, b, c) = "latest")
    ∧ selectQlibVersion (0, 6, 1) = "0.6.1" := by
  refine ⟨fun h => ?_, fun h => ?_, rfl⟩
  · unfold selectQlibVersion
    rw [if_pos ((inSpecLE061_iff a b c).mpr h)]
  · unfold selectQlibVersion
    rw [if_neg ?_]
    intro hmem
    have hle := (inSpecLE061_iff a b c).mp hmem
    unfold verLE at hle
    unfold verLT at h
    simp only [] at hle h
    omega

/-- Witness for C3 at the concrete versions `0.6.0` (older than the
boundary) and `0.7.0` (newer). -/
theorem claim3_witness :
    (verLE (0, 6, 0) (0, 6, 1) ∧ selectQlibVersion (0, 6, 0) = "0.6.1")
    ∧ (verLT (0, 6, 1) (0, 7, 0) ∧ selectQlibVersion (0, 7, 0) = "latest") :=
  ⟨⟨by decide, (claim3_compat_tag 0 6 0).1 (by decide)⟩,
   ⟨by decide, (claim3_compat_tag 0 7 0).2.1 (by decide)⟩⟩

/-- C4: the file name `qlib_data` resolves is exactly the template
`{dataset_name}_{region}_{interval}_{qlib_version}_{data_version}.zip`
with every dynamic segment lower-cased. -/
theorem claim4_filename_template
    (name version interval region qlib_version : String) :
    qlibDataFileName name version interval region qlib_version
      = strLower name ++ "_" ++ strLower region ++ "_" ++ strLower interval
        ++ "_" ++ strLower qlib_version ++ "_" ++ strLower version ++ ".zip" := by
  unfold qlibDataFileName qlibDataNameFormat
  simp only [strLower_append, strLower_strLower]
  rw [show strLower "_" = "_" from rfl, show strLower ".zip" = ".zip" from rfl]

/-- C7: with installed library version `0.7.0`, the call
`qlib_data(name="qlib_data", region="us", interval="1d", version="v1")`
resolves the request file name `qlib_data_us_1d_latest_v1.zip`. -/
theorem claim7_example_resolution :
    qlibDataResolve "0.7.0" "qlib_data" "v1" "1d" "us"
      = .ok "qlib_data_us_1d_latest_v1.zip" := by
  rfl

/-- C8: `csv_data_cn` always requests the hard-coded file name
`csv_data_cn.zip` and invokes the download step without a `delete_old`
argument, so the download runs with the default `delete_old = true`. -/
theorem claim8_csv_fixed_name (fs : FS) (delete_zip_file : Bool) (resp : Resp)
    (entries : List ZipEntry) (target_dir : FPath) :
    csv_data_cn fs delete_zip_file resp entries target_dir
      = downloadData fs delete_zip_file resp entries "csv_data_cn.zip"
          target_dir true := by
  rfl

/-- On a 200 response, the state a download run ends in (returned or
carried by the raise of line 55) is: directory made, body streamed to the
archive path, entries extracted. -/
theorem downloadData_state (fs : FS) (delete_zip_file : Bool) (resp : Resp)
    (entries : List ZipEntry) (file_name : String) (target_dir : FPath)
    (delete_old : Bool) (h200 : resp.status = 200) :
    resultFS (downloadData fs delete_zip_file resp entries file_name
        target_dir delete_old)
      = unzip entries target_dir delete_old
          (writeFile (mkdirP fs target_dir) (target_dir ++ [file_name])
            (streamedBytes 1024 resp.body)) := by
  unfold downloadData
  rw [if_neg (by simp [h200])]
  cases delete_zip_file <;> rfl

/-- With `delete_zip_file` set, a download run on a 200 response always
ends in the `AttributeError` of `target_path.unlike()` (line 55), raised
after extraction. -/
theorem downloadData_unlike_raises (fs : FS) (resp : Resp)
    (entries : List ZipEntry) (file_name : String) (target_dir : FPath)
    (delete_old : Bool) (h200 : resp.status = 200) :
    downloadData fs true resp entries file_name target_dir delete_old
      = .error (.attributeError,
          unzip entries target_dir delete_old
            (writeFile (mkdirP fs target_dir) (target_dir ++ [file_name])
              (streamedBytes 1024 resp.body))) := by
  unfold downloadData
  rw [if_neg (by simp [h200])]
  rfl

/-- Extraction paths of entries other than the archive name differ from the
archive path. -/
theorem entry_path_ne (target_dir : FPath) (file_name : String)
    (entries : List ZipEntry)
    (hfree : [file_name] ∉ entries.map Prod.fst) :
    ∀ e ∈ entries, target_dir ++ e.1 ≠ target_dir ++ [file_name] := by
  intro e he hc
  exact hfree ((List.append_cancel_left hc) ▸ List.mem_map_of_mem Prod.fst he)

/-- C5: on a response whose status is not 200 the download raises
`HTTPError` at once, and no output file is created or written: the file
map of the state at the raise is the initial file map. -/
theorem claim5_non200_no_write (fs : FS) (delete_zip_file : Bool)
    (resp : Resp) (entries : List ZipEntry) (file_name : String)
    (target_dir : FPath) (delete_old : Bool) (h : resp.status ≠ 200) :
    downloadData fs delete_zip_file resp entries file_name target_dir
        delete_old
      = .error (.httpError, mkdirP fs target_dir)
    ∧ (mkdirP fs target_dir).files = fs.files := by
  constructor
  · unfold downloadData
    rw [if_pos h]
  · exact mkdirP_files fs target_dir

/-- Witness for C5 at a concrete 404 response. -/
theorem claim5_witness :
    (404 : Nat) ≠ 200
    ∧ (downloadData ⟨[], []⟩ false ⟨404, [1, 2]⟩ [] "a.zip" ["t"] true
        = .error (.httpError, mkdirP ⟨[], []⟩ ["t"])
      ∧ (mkdirP (⟨[], []⟩ : FS) ["t"]).files = (⟨[], []⟩ : FS).files) :=
  ⟨by decide,
   claim5_non200_no_write ⟨[], []⟩ false ⟨404, [1, 2]⟩ [] "a.zip" ["t"] true
     (by decide)⟩

/-- C6: on a 200 response, the archive file written into the target
directory holds exactly the concatenation of the 1024-byte chunks of the
response body, which is the response body itself (the hypothesis keeps the
archive entries from overwriting the archive file during extraction). -/
theorem claim6_stream_roundtrip (fs : FS) (delete_zip_file : Bool)
    (resp : Resp) (entries : List ZipEntry) (file_name : String)
    (target_dir : FPath) (delete_old : Bool) (h200 : resp.status = 200)
    (hfree : [file_name] ∉ entries.map Prod.fst) :
    readFile
        (resultFS (downloadData fs delete_zip_file resp entries file_name
          target_dir delete_old))
        (target_dir ++ [file_name])
      = some resp.body := by
  rw [downloadData_state fs delete_zip_file resp entries file_name target_dir
    delete_old h200]
  unfold unzip
  rw [readFile_extract_of_ne _ _ _ _ (entry_path_ne target_dir file_name entries hfree)]
  rw [readFile_writeFile_self, streamedBytes_eq]

/-- Witness for C6 at a concrete response body of 3 bytes. -/
theorem claim6_witness :
    (Resp.mk 200 [9, 8, 7]).status = 200
    ∧ ([("b.zip" : String)] ∉ ([([("x" : String)], [1])] : List ZipEntry).map Prod.fst)
    ∧ readFile
        (resultFS (downloadData ⟨[], []⟩ false ⟨200, [9, 8, 7]⟩
          [([("x" : String)], [1])] "b.zip" ["t"] true))
        (["t"] ++ ["b.zip"])
      = some (Resp.mk 200 [9, 8, 7]).body :=
  ⟨rfl, by decide,
   claim6_stream_roundtrip ⟨[], []⟩ false ⟨200, [9, 8, 7]⟩
     [([("x" : String)], [1])] "b.zip" ["t"] true rfl (by decide)⟩

/-- C10: with `delete_zip_file` set, extraction of every archive entry
completes before the archive-deletion step is attempted; that step fails
(line 55 raises `AttributeError`), and at that failure the target directory
holds every extracted entry and the archive file is still on disk with the
downloaded body. -/
theorem claim10_extract_before_delete (fs : FS) (resp : Resp)
    (entries : List ZipEntry) (file_name : String) (target_dir : FPath)
    (delete_old : Bool) (h200 : resp.status = 200)
    (hnd : (entries.map Prod.fst).Nodup)
    (hfree : [file_name] ∉ entries.map Prod.fst) :
    ∃ fs3,
      downloadData fs true resp entries file_name target_dir delete_old
        = .error (.attributeError, fs3)
      ∧ readFile fs3 (target_dir ++ [file_name]) = some resp.body
      ∧ ∀ e ∈ entries, readFile fs3 (target_dir ++ e.1) = some e.2 := by
  refine ⟨_, downloadData_unlike_raises fs resp entries file_name target_dir
    delete_old h200, ?_, ?_⟩
  · unfold unzip
    rw [readFile_extract_of_ne _ _ _ _ (entry_path_ne target_dir file_name entries hfree)]
    rw [readFile_writeFile_self, streamedBytes_eq]
  · intro e he
    exact readFile_extract_of_mem entries target_dir _ hnd e he

/-- C1 (evaluation of the code at the failing input): a run with
`delete_old = true` over a target directory holding a pre-existing file
`features/old` does NOT remove the `features` subdirectory — the file and
the directory survive extraction, because `_unzip` only logs the deletion
warning and never calls `_delete_qlib_data`.  The final conjunct shows the
never-invoked `_delete_qlib_data` would indeed have removed it. -/
theorem claim1_old_data_not_deleted :
    readFile
        (resultFS (downloadData
          ⟨[([("t" : String), "features", "old"], [7])],
            [[("t" : String)], ["t", "features"]]⟩
          false ⟨200, []⟩ [] "a.zip" ["t"] true))
        [("t" : String), "features", "old"]
      = some [7]
    ∧ pathExists
        (resultFS (downloadData
          ⟨[([("t" : String), "features", "old"], [7])],
            [[("t" : String)], ["t", "features"]]⟩
          false ⟨200, []⟩ [] "a.zip" ["t"] true))
        [("t" : String), "features"]
      = true
    ∧ readFile
        (delete_qlib_data [("t" : String)]
          ⟨[([("t" : String), "features", "old"], [7])],
            [[("t" : String)], ["t", "features"]]⟩)
        [("t" : String), "features", "old"]
      = none := by
  refine ⟨by decide, by decide, by decide⟩

/-- C2 (evaluation of the code at the failing input): a run constructed
with `delete_zip_file = true` ends in the `AttributeError` raised by
`target_path.unlike()` (line 55, a typo for `unlink`), and the downloaded
archive is still on disk in the state the exception propagates from. -/
theorem claim2_zip_deletion_broken :
    downloadData ⟨[], []⟩ true ⟨200, [5]⟩ [] "a.zip" ["t"] true
      = .error (.attributeError,
          ⟨[([("t" : String), "a.zip"], [5])], [[("t" : String)]]⟩)
    ∧ fileExists
        ⟨[([("t" : String), "a.zip"], [5])], [[("t" : String)]]⟩
        [("t" : String), "a.zip"]
      = true := by
  refine ⟨by rfl, by decide⟩

/-- C9: if the installed library version string contains no substring of
the form digit-group, separator character, digit-group, separator
character, digit-group (the separators being single non-newline characters,
as matched by the `.` of the regex on line 106), then `qlib_data` raises a
`TypeError` from subscripting the failed `re.search` result, before any
HTTP request is issued and with the file system untouched. -/
theorem claim9_no_version_match (fs : FS) (delete_zip_file : Bool)
    (resp : Resp) (entries : List ZipEntry) (lib_version name : String)
    (target_dir : FPath) (version interval region : String)
    (delete_old : Bool)
    (hno : ¬ ∃ pre d1 b d2 d d3 post,
        lib_version.data = pre ++ (d1 ++ [b] ++ d2 ++ [d] ++ d3) ++ post
        ∧ d1 ≠ [] ∧ (∀ c ∈ d1, c.isDigit = true)
        ∧ d2 ≠ [] ∧ (∀ c ∈ d2, c.isDigit = true)
        ∧ d3 ≠ [] ∧ (∀ c ∈ d3, c.isDigit = true)
        ∧ b ≠ '\n' ∧ d ≠ '\n') :
    qlib_data fs delete_zip_file resp entries lib_version name target_dir
        version interval region delete_old
      = .error (.typeError, fs) := by
  have hnone : searchVersion lib_version.data = none := by
    cases h : searchVersion lib_version.data with
    | none => rfl
    | some r => exact absurd (searchVersion_some_shape _ r h) hno
  simp [qlib_data, qlibDataResolve, hnone]

/-- A string with no digit at all contains no version-shaped substring. -/
theorem no_shape_of_no_digit (s : List Char)
    (h : ∀ c ∈ s, c.isDigit = false) :
    ¬ ∃ pre d1 b d2 d d3 post,
        s = pre ++ (d1 ++ [b] ++ d2 ++ [d] ++ d3) ++ post
        ∧ d1 ≠ [] ∧ (∀ c ∈ d1, c.isDigit = true)
        ∧ d2 ≠ [] ∧ (∀ c ∈ d2, c.isDigit = true)
        ∧ d3 ≠ [] ∧ (∀ c ∈ d3, c.isDigit = true)
        ∧ b ≠ '\n' ∧ d ≠ '\n' := by
  rintro ⟨pre, d1, b, d2, d, d3, post, heq, hne, hdig, -⟩
  match d1, hne, hdig with
  | c :: d1', _, hdig =>
      have hc : c ∈ s := by
        rw [heq]
        simp
      have h1 := h c hc
      have h2 := hdig c (List.mem_cons_self _ _)
      rw [h1] at h2
      exact Bool.false_ne_true h2

/-- Witness for C9 at the concrete version string `"unknown"`. -/
theorem claim9_witness :
    (¬ ∃ pre d1 b d2 d d3 post,
        ("unknown" : String).data = pre ++ (d1 ++ [b] ++ d2 ++ [d] ++ d3) ++ post
        ∧ d1 ≠ [] ∧ (∀ c ∈ d1, c.isDigit = true)
        ∧ d2 ≠ [] ∧ (∀ c ∈ d2, c.isDigit = true)
        ∧ d3 ≠ [] ∧ (∀ c ∈ d3, c.isDigit = true)
        ∧ b ≠ '\n' ∧ d ≠ '\n')
    ∧ qlib_data ⟨[], []⟩ false ⟨200, []⟩ [] "unknown" "qlib_data" ["t"]
        "latest" "1d" "cn" true
      = .error (.typeError, ⟨[], []⟩) :=
  have hno := no_shape_of_no_digit ("unknown" : String).data (by decide)
  ⟨hno, claim9_no_version_match ⟨[], []⟩ false ⟨200, []⟩ [] "unknown"
    "qlib_data" ["t"] "latest" "1d" "cn" true hno⟩

/-- Witness for C10 at a concrete archive of two entries. -/
theorem claim10_witness :
    (Resp.mk 200 [3]).status = 200
    ∧ (([([("x" : String)], [1]), ([("y" : String)], [2])] : List ZipEntry).map Prod.fst).Nodup
    ∧ ([("a.zip" : String)] ∉ ([([("x" : String)], [1]), ([("y" : String)], [2])] : List ZipEntry).map Prod.fst)
    ∧ ∃ fs3,
        downloadData ⟨[], []⟩ true ⟨200, [3]⟩
            [([("x" : String)], [1]), ([("y" : String)], [2])] "a.zip" ["t"] true
          = .error (.attributeError, fs3)
        ∧ readFile fs3 (["t"] ++ ["a.zip"]) = some (Resp.mk 200 [3]).body
        ∧ ∀ e ∈ ([([("x" : String)], [1]), ([("y" : String)], [2])] : List ZipEntry),
            readFile fs3 (["t"] ++ e.1) = some e.2 :=
  ⟨rfl, by decide, by decide,
   claim10_extract_before_delete ⟨[], []⟩ ⟨200, [3]⟩
     [([("x" : String)], [1]), ([("y" : String)], [2])] "a.zip" ["t"] true
     rfl (by decide) (by decide)⟩

end GetDataModel
